import Mathlib

/-!
Verification of the multipart-upload adapter and the in-memory credential
store of the storj/stargate repository, as a shallow embedding in Lean 4.

Go strings are byte slices; we model them as `List Nat` with byte values.
Go `int` values are modelled as `Int`, Go maps as update functions or
association lists, and the external storage-network API (storj.io/uplink
`private/multipart`) as explicit function parameters supplied by the caller,
so that theorems quantify over every possible network behaviour.
-/

set_option maxRecDepth 100000

namespace Stargate

/-- Go strings are byte slices; we model them as lists of byte values. -/
abbrev GoStr := List Nat

/-- Byte list of an ASCII string literal (Go source literals are ASCII here). -/
def gostr (s : String) : GoStr := s.data.map Char.toNat

/-! ### MD5 (crypto/md5), used by `multipartUploadETag` and by minio's
`PutObjReader.MD5CurrentHexString`.  Standard RFC 1321 algorithm over a byte
list, all words reduced modulo 2^32. -/

/-- 2^32, the word modulus. -/
def m32 : Nat := 4294967296

/-- Addition modulo 2^32. -/
def add32 (a b : Nat) : Nat := (a + b) % m32

/-- Left rotation of a 32-bit word by `n < 32` bits. -/
def rotl32 (x n : Nat) : Nat := (x % 2 ^ (32 - n)) * 2 ^ n + x / 2 ^ (32 - n)

/-- Bitwise complement of a 32-bit word. -/
def not32 (x : Nat) : Nat := 4294967295 - x % m32

/-- The 64 MD5 sine-derived round constants. -/
def md5K : List Nat :=
  [0xd76aa478, 0xe8c7b756, 0x242070db, 0xc1bdceee,
   0xf57c0faf, 0x4787c62a, 0xa8304613, 0xfd469501,
   0x698098d8, 0x8b44f7af, 0xffff5bb1, 0x895cd7be,
   0x6b901122, 0xfd987193, 0xa679438e, 0x49b40821,
   0xf61e2562, 0xc040b340, 0x265e5a51, 0xe9b6c7aa,
   0xd62f105d, 0x02441453, 0xd8a1e681, 0xe7d3fbc8,
   0x21e1cde6, 0xc33707d6, 0xf4d50d87, 0x455a14ed,
   0xa9e3e905, 0xfcefa3f8, 0x676f02d9, 0x8d2a4c8a,
   0xfffa3942, 0x8771f681, 0x6d9d6122, 0xfde5380c,
   0xa4beea44, 0x4bdecfa9, 0xf6bb4b60, 0xbebfbc70,
   0x289b7ec6, 0xeaa127fa, 0xd4ef3085, 0x04881d05,
   0xd9d4d039, 0xe6db99e5, 0x1fa27cf8, 0xc4ac5665,
   0xf4292244, 0x432aff97, 0xab9423a7, 0xfc93a039,
   0x655b59c3, 0x8f0ccc92, 0xffeff47d, 0x85845dd1,
   0x6fa87e4f, 0xfe2ce6e0, 0xa3014314, 0x4e0811a1,
   0xf7537e82, 0xbd3af235, 0x2ad7d2bb, 0xeb86d391]

/-- The 64 per-round left-rotation amounts. -/
def md5S : List Nat :=
  [7, 12, 17, 22, 7, 12, 17, 22, 7, 12, 17, 22, 7, 12, 17, 22,
   5, 9, 14, 20, 5, 9, 14, 20, 5, 9, 14, 20, 5, 9, 14, 20,
   4, 11, 16, 23, 4, 11, 16, 23, 4, 11, 16, 23, 4, 11, 16, 23,
   6, 10, 15, 21, 6, 10, 15, 21, 6, 10, 15, 21, 6, 10, 15, 21]

/-- The MD5 round mixing function, selected by round index. -/
def md5F (i b c d : Nat) : Nat :=
  if i < 16 then (b &&& c) ||| (not32 b &&& d)
  else if i < 32 then (d &&& b) ||| (not32 d &&& c)
  else if i < 48 then b ^^^ c ^^^ d
  else c ^^^ (b ||| not32 d)

/-- The MD5 message-word schedule. -/
def md5G (i : Nat) : Nat :=
  if i < 16 then i
  else if i < 32 then (5 * i + 1) % 16
  else if i < 48 then (3 * i + 5) % 16
  else (7 * i) % 16

/-- Little-endian 32-bit word `j` of a 64-byte block. -/
def leWord (block : List Nat) (j : Nat) : Nat :=
  block.getD (4 * j) 0 + 256 * block.getD (4 * j + 1) 0 +
    65536 * block.getD (4 * j + 2) 0 + 16777216 * block.getD (4 * j + 3) 0

/-- One MD5 round on the state quadruple. -/
def md5Round (block : List Nat) (st : Nat × Nat × Nat × Nat) (i : Nat) :
    Nat × Nat × Nat × Nat :=
  let (a, b, c, d) := st
  let f := add32 (add32 (add32 (md5F i b c d) a) (md5K.getD i 0)) (leWord block (md5G i))
  (d, add32 b (rotl32 f (md5S.getD i 0)), b, c)

/-- Compression of one 64-byte block into the running state. -/
def md5Block (st : Nat × Nat × Nat × Nat) (block : List Nat) : Nat × Nat × Nat × Nat :=
  let (a, b, c, d) := (List.range 64).foldl (md5Round block) st
  (add32 st.1 a, add32 st.2.1 b, add32 st.2.2.1 c, add32 st.2.2.2 d)

/-- The `n` low-order bytes of `x`, little endian. -/
def leBytes : Nat → Nat → List Nat
  | 0, _ => []
  | n + 1, x => x % 256 :: leBytes n (x / 256)

/-- RFC 1321 padding: a 0x80 byte, zeros to 56 mod 64, and the 64-bit
little-endian bit length. -/
def md5Pad (msg : List Nat) : List Nat :=
  msg ++ 128 :: (List.replicate ((119 - msg.length % 64) % 64) 0 ++ leBytes 8 (msg.length * 8))

/-- Split a byte list into 64-byte blocks; the fuel argument (at least the
list length) makes the recursion structural. -/
def toBlocksAux : Nat → List Nat → List (List Nat)
  | 0, _ => []
  | _, [] => []
  | n + 1, a :: l => ((a :: l).take 64) :: toBlocksAux n ((a :: l).drop 64)

/-- Split a (padded) byte list into 64-byte blocks. -/
def toBlocks (l : List Nat) : List (List Nat) := toBlocksAux l.length l

/-- MD5 digest (16 bytes) of a byte list: `crypto/md5`'s `md5.Sum`. -/
def md5 (msg : List Nat) : List Nat :=
  let st := (toBlocks (md5Pad msg)).foldl md5Block (0x67452301, 0xefcdab89, 0x98badcfe, 0x10325476)
  leBytes 4 st.1 ++ leBytes 4 st.2.1 ++ leBytes 4 st.2.2.1 ++ leBytes 4 st.2.2.2

/-- Lowercase hex digit byte for a value below 16. -/
def hexDigitChar (n : Nat) : Nat := if n < 10 then 48 + n else 87 + n

/-- Lowercase hex encoding of a byte list: `encoding/hex`'s `EncodeToString`. -/
def hexEncode (bs : List Nat) : GoStr :=
  (bs.map (fun b => [hexDigitChar (b / 16), hexDigitChar (b % 16)])).flatten

/-! ### ETag composer (src/miniogw/multipart.go: multipartUploadETag, canonicalEtag) -/

/-- Value of a single hex digit byte: digits, lowercase and uppercase letters,
as accepted by `encoding/hex`. -/
def hexDigitVal (c : Nat) : Option Nat :=
  if 48 ≤ c ∧ c ≤ 57 then some (c - 48)
  else if 97 ≤ c ∧ c ≤ 102 then some (c - 87)
  else if 65 ≤ c ∧ c ≤ 70 then some (c - 55)
  else none

/-- Go's `hex.DecodeString`: `none` on odd length or any non-hex digit,
otherwise the decoded bytes. -/
def hexDecode : GoStr → Option (List Nat)
  | [] => some []
  | [_] => none
  | a :: b :: rest =>
    match hexDigitVal a, hexDigitVal b, hexDecode rest with
    | some x, some y, some tl => some ((16 * x + y) :: tl)
    | _, _, _ => none

/-- Go's `strings.Trim(s, quote)`: drop leading and trailing `"` bytes. -/
def trimQuotes (s : GoStr) : GoStr :=
  ((s.dropWhile (fun c => c == 34)).reverse.dropWhile (fun c => c == 34)).reverse

/-- Translation of `canonicalEtag`: trim surrounding quotes, then keep
everything strictly before the first `-` byte (`strings.IndexByte`). -/
def canonicalEtag (etag : GoStr) : GoStr :=
  let e := trimQuotes etag
  match e.findIdx? (fun c => c == 45) with
  | some p => e.take p
  | none => e

/-- `minio.CompletePart`: the part number and the client-visible ETag. -/
structure CompletePart where
  partNumber : Int
  eTag : GoStr
deriving DecidableEq, Repr

/-- The bytes one part contributes to the aggregate hash: the hex-decoded
canonical ETag, or the raw ETag bytes when decoding fails (the body of the
loop in `multipartUploadETag`). -/
def etagContribution (etag : GoStr) : List Nat :=
  match hexDecode (canonicalEtag etag) with
  | some bs => bs
  | none => etag

/-- Go's `strconv.Itoa` for non-negative values: decimal digit bytes. -/
def itoa (n : Nat) : GoStr := (Nat.toDigits 10 n).map Char.toNat

/-- Translation of `multipartUploadETag`: fold the per-part contributions into
one byte slice, MD5 it, hex encode, and append `-<part count>`.  The Go
function also returns an `error` that is always `nil`, so the string result
alone models it. -/
def multipartUploadETag (parts : List CompletePart) : GoStr :=
  let hashes := parts.foldl (fun acc part => acc ++ etagContribution part.eTag) []
  hexEncode (md5 hashes) ++ 45 :: itoa parts.length

/-- Decidable equality of `Except` results, for evaluating concrete calls. -/
instance {ε α : Type} [DecidableEq ε] [DecidableEq α] : DecidableEq (Except ε α)
  | .error e, .error f => if h : e = f then isTrue (by rw [h]) else isFalse (by simp [h])
  | .error _, .ok _ => isFalse (by simp)
  | .ok _, .error _ => isFalse (by simp)
  | .ok a, .ok b => if h : a = b then isTrue (by rw [h]) else isFalse (by simp [h])

/-! ### Error vocabulary (src/miniogw/multipart.go: convertMultipartError) -/

/-- Errors surfaced by the storage network (storj.io/uplink private multipart
API): `streamIDInvalid` models `multipart.ErrStreamIDInvalid`, `other` any
other network failure, carried opaquely. -/
inductive NetErr where
  | streamIDInvalid : NetErr
  | other : Nat → NetErr
deriving DecidableEq, Repr

/-- Errors in the minio object-layer vocabulary that the gateway returns. -/
inductive GoErr where
  | invalidUploadID (bucket object uploadID : GoStr)
  | bucketNameInvalid
  | unsupportedDelimiter (delimiter : GoStr)
  | storage (e : NetErr) (bucket object : GoStr)
deriving DecidableEq, Repr

/-- Modelled from the spec: `convertError` (repository code not under src/)
wraps any other network failure as a generic storage error carrying bucket
and object ("any network failure is surfaced as a generic storage error"). -/
def convertError (e : NetErr) (bucket object : GoStr) : GoErr := .storage e bucket object

/-- Translation of `convertMultipartError`: `ErrStreamIDInvalid` becomes
`InvalidUploadID{bucket, object, uploadID}`, everything else goes through
`convertError`. -/
def convertMultipartError (e : NetErr) (bucket object uploadID : GoStr) : GoErr :=
  match e with
  | .streamIDInvalid => .invalidUploadID bucket object uploadID
  | .other n => convertError (.other n) bucket object

/-! ### Gateway data shapes (minio object-layer records, fields the gateway
sets; Go zero values are 0 / empty) -/

/-- Custom metadata (`uplink.CustomMetadata`), a Go string map modelled as an
association list; assignment removes the old binding and appends. -/
abbrev CustomMetadata := List (GoStr × GoStr)

/-- Map lookup: the most recent binding for the key. -/
def metaGet (m : CustomMetadata) (k : GoStr) : Option GoStr :=
  (m.reverse.find? (fun kv => kv.1 == k)).map (fun kv => kv.2)

/-- Go map assignment `m[k] = v`. -/
def metaSet (m : CustomMetadata) (k v : GoStr) : CustomMetadata :=
  m.filter (fun kv => kv.1 ≠ k) ++ [(k, v)]

/-- `uplink.CustomMetadata.Clone` (external): returns a copy of the map; with
value semantics this is the identity. -/
def cloneMeta (m : CustomMetadata) : CustomMetadata := m

/-- `minio.MultipartInfo` (fields used by the gateway); `initiated` is the
creation time as an integer timestamp. -/
structure MultipartInfoM where
  bucket : GoStr
  object : GoStr
  initiated : Int
  uploadID : GoStr
  userDefined : CustomMetadata
deriving DecidableEq, Repr

/-- `minio.PartInfo` (fields used by the gateway). -/
structure PartInfoM where
  partNumber : Int
  lastModified : Int
  eTag : GoStr
  size : Int
  actualSize : Int
deriving DecidableEq, Repr

/-- `minio.ObjectInfo` fields relevant to the completion path. -/
structure ObjectInfoM where
  bucket : GoStr
  name : GoStr
  eTag : GoStr
deriving DecidableEq, Repr

/-- Object returned by the network `multipart.CompleteMultipartUpload`
(`multipart.Object`, fields used downstream). -/
structure NetObject where
  key : GoStr
  streamID : GoStr
  created : Int
  custom : CustomMetadata
deriving DecidableEq, Repr

/-- One item yielded by the network upload iterator (`multipart.Object` from
`UploadIterator.Item()`, fields used by the gateway). -/
structure UploadItem where
  isPre : Bool
  key : GoStr
  streamID : GoStr
  created : Int
  custom : CustomMetadata
deriving DecidableEq, Repr

/-- Result of the network `multipart.PutObjectPart` call (fields used). -/
structure NetPartUpload where
  size : Int
deriving DecidableEq, Repr

/-- One item from the network `multipart.ListObjectParts` (fields used). -/
structure NetPartItem where
  partNumber : Int
  lastModified : Int
  size : Int
deriving DecidableEq, Repr

/-- Page returned by the network `multipart.ListObjectParts`. -/
structure NetPartList where
  items : List NetPartItem
  more : Bool
deriving DecidableEq, Repr

/-- `minio.ListPartsInfo` fields set by the gateway. -/
structure ListPartsInfoM where
  bucket : GoStr
  object : GoStr
  uploadID : GoStr
  storageClass : GoStr
  partNumberMarker : Int
  nextPartNumberMarker : Int
  maxParts : Int
  isTruncated : Bool
  parts : List PartInfoM
deriving DecidableEq, Repr

/-- `minio.ListMultipartsInfo` fields set by the gateway; `pfx` is the Go
`Prefix` field. -/
structure ListMultipartsInfoM where
  keyMarker : GoStr
  uploadIDMarker : GoStr
  nextKeyMarker : GoStr
  maxUploads : Int
  isTruncated : Bool
  uploads : List MultipartInfoM
  pfx : GoStr
  delimiter : GoStr
  commonPrefixes : List GoStr
deriving DecidableEq, Repr

/-! ### Gateway operations (src/miniogw/multipart.go).  The external network
calls are explicit function parameters; `openResult` models the
`openProjectMultipart` step, whose failure aborts before any network call. -/

/-- Translation of `GetMultipartInfo`: fills bucket, object and uploadID into
a zero `minio.MultipartInfo` and returns it; no network call, no
validation. -/
def GetMultipartInfo (bucket object uploadID : GoStr) : Except GoErr MultipartInfoM :=
  .ok { bucket := bucket, object := object, initiated := 0, uploadID := uploadID,
        userDefined := [] }

/-- minio's `PutObjReader.MD5CurrentHexString` as consumed by the gateway:
the lowercase hex MD5 of the client-supplied part bytes (external interface,
github.com/storj/minio). -/
def MD5CurrentHexString (data : List Nat) : GoStr := hexEncode (md5 data)

/-- Translation of the gateway's `PutObjectPart`: converts `partID` to the
0-based index for the network call and builds the `PartInfo` from the given
part number, the network-reported size, and the client-side content hash. -/
def PutObjectPart (openResult : Except GoErr Unit)
    (net : Int → List Nat → Except NetErr NetPartUpload)
    (bucket object uploadID : GoStr) (partID : Int) (data : List Nat) :
    Except GoErr PartInfoM :=
  match openResult with
  | .error e => .error e
  | .ok _ =>
    match net (partID - 1) data with
    | .error e => .error (convertMultipartError e bucket object uploadID)
    | .ok partInfo =>
      .ok { partNumber := partID, lastModified := 0, eTag := MD5CurrentHexString data,
            size := partInfo.size, actualSize := 0 }

/-- Ascending order on `minio.PartInfo` by part number, the comparator of the
`sort.Slice` call in `ListObjectParts`. -/
def partNumLE (a b : PartInfoM) : Prop := a.partNumber ≤ b.partNumber

instance : DecidableRel partNumLE := fun a b => Int.decLe a.partNumber b.partNumber

instance : IsTotal PartInfoM partNumLE := ⟨fun a b => le_total a.partNumber b.partNumber⟩

instance : IsTrans PartInfoM partNumLE := ⟨fun _ _ _ => le_trans⟩

/-- Go's `sort.Slice(parts, by ascending part number)`, modelled as insertion
sort (`sort.Slice` leaves the order of ties unspecified; the stated
properties do not depend on it). -/
def sortByPartNumber (parts : List PartInfoM) : List PartInfoM :=
  parts.insertionSort partNumLE

/-- Translation of the gateway's `ListObjectParts`: queries the network with
the 0-based marker, shifts part indices back to 1-based, leaves ETags empty,
sorts ascending by part number, and copies the network's `More` flag. -/
def ListObjectParts (openResult : Except GoErr Unit)
    (net : Int → Int → Except NetErr NetPartList)
    (bucket object uploadID : GoStr) (partNumberMarker maxParts : Int) :
    Except GoErr ListPartsInfoM :=
  match openResult with
  | .error e => .error e
  | .ok _ =>
    match net (partNumberMarker - 1) maxParts with
    | .error e => .error (convertMultipartError e bucket object uploadID)
    | .ok list =>
      let parts := list.items.map (fun item =>
        ({ partNumber := item.partNumber + 1, lastModified := item.lastModified,
           eTag := [], size := item.size, actualSize := item.size } : PartInfoM))
      .ok { bucket := bucket, object := object, uploadID := uploadID, storageClass := [],
            partNumberMarker := partNumberMarker, nextPartNumberMarker := partNumberMarker,
            maxParts := maxParts, isTruncated := list.more,
            parts := sortByPartNumber parts }

/-- Modelled from the spec: `minioObjectInfo` (repository code not under
src/) — "Returns object metadata including bucket, key, and the computed
ETag". -/
def minioObjectInfo (bucket : GoStr) (etag : GoStr) (obj : NetObject) : ObjectInfoM :=
  { bucket := bucket, name := obj.key, eTag := etag }

/-- The metadata the gateway sends with the completion call: the cloned user
metadata with `s3:etag` set to the aggregate ETag. -/
def completionMetadata (userDefined : CustomMetadata) (uploadedParts : List CompletePart) :
    CustomMetadata :=
  metaSet (cloneMeta userDefined) (gostr "s3:etag") (multipartUploadETag uploadedParts)

/-- Translation of the gateway's `CompleteMultipartUpload`: computes the
aggregate ETag, injects it under `s3:etag`, issues the single network
completion call, and converts the result.  (The source also checks the
always-`nil` error of `multipartUploadETag`.) -/
def CompleteMultipartUpload (openResult : Except GoErr Unit)
    (net : GoStr → GoStr → GoStr → CustomMetadata → Except NetErr NetObject)
    (bucket object uploadID : GoStr) (uploadedParts : List CompletePart)
    (userDefined : CustomMetadata) : Except GoErr ObjectInfoM :=
  match openResult with
  | .error e => .error e
  | .ok _ =>
    let etag := multipartUploadETag uploadedParts
    match net bucket object uploadID (completionMetadata userDefined uploadedParts) with
    | .error e => .error (convertMultipartError e bucket object uploadID)
    | .ok obj => .ok (minioObjectInfo bucket etag obj)

/-- Translation of `minioMultipartInfo` (the nil-pointer default of the Go
function disappears because items are values in the model). -/
def minioMultipartInfo (bucket : GoStr) (object : UploadItem) : MultipartInfoM :=
  { bucket := bucket, object := object.key, initiated := object.created,
    uploadID := object.streamID, userDefined := object.custom }

/-- The page loop of `ListMultipartUploads`, Go's
`for (limit > 0 || maxUploads == 0) && list.Next() { limit--; ... }`: the
iterator is modelled by the list of items it yields; the result carries the
accumulated common prefixes, the uploads, the `startAfter` candidate, and
the items left unconsumed. -/
def uploadsLoop (bucket : GoStr) (maxUploads : Int) :
    List UploadItem → Int → List GoStr → List MultipartInfoM → GoStr →
    List GoStr × List MultipartInfoM × GoStr × List UploadItem
  | items, limit, prefixes, uploads, startAfter =>
    if limit > 0 ∨ maxUploads = 0 then
      match items with
      | [] => (prefixes, uploads, startAfter, [])
      | it :: rest =>
        if it.isPre then
          uploadsLoop bucket maxUploads rest (limit - 1) (prefixes ++ [it.key]) uploads startAfter
        else
          uploadsLoop bucket maxUploads rest (limit - 1) prefixes
            (uploads ++ [minioMultipartInfo bucket it]) it.key
    else (prefixes, uploads, startAfter, items)

/-- The page loop as claim C5 describes it: identical to `uploadsLoop` except
that a common-prefix item consumes no quota toward `maxUploads` (the limit is
decremented only for upload records). -/
def uploadsLoopClaim (bucket : GoStr) (maxUploads : Int) :
    List UploadItem → Int → List GoStr → List MultipartInfoM → GoStr →
    List GoStr × List MultipartInfoM × GoStr × List UploadItem
  | items, limit, prefixes, uploads, startAfter =>
    if limit > 0 ∨ maxUploads = 0 then
      match items with
      | [] => (prefixes, uploads, startAfter, [])
      | it :: rest =>
        if it.isPre then
          uploadsLoopClaim bucket maxUploads rest limit (prefixes ++ [it.key]) uploads startAfter
        else
          uploadsLoopClaim bucket maxUploads rest (limit - 1) prefixes
            (uploads ++ [minioMultipartInfo bucket it]) it.key
    else (prefixes, uploads, startAfter, items)

/-- Modelled from the spec: `checkBucketError` (repository code not under
src/) re-checks bucket existence only for failed calls; on the surface of
this model it passes the already-translated error through unchanged. -/
def checkBucketError (e : GoErr) : GoErr := e

/-- Translation of the gateway's `ListMultipartUploads`.  `items` is the
sequence the chosen network iterator (pending object streams, or multipart
uploads) yields; `iterFail` is the error its `Err()` reports once the
iterator is exhausted, `none` meaning a clean end.  Validation happens after
the project is opened and before the iterator is touched. -/
def ListMultipartUploads (openResult : Except GoErr Unit)
    (items : List UploadItem) (iterFail : Option NetErr)
    (bucket pfx keyMarker uploadIDMarker delimiter : GoStr) (maxUploads : Int) :
    Except GoErr ListMultipartsInfoM :=
  match openResult with
  | .error e => .error e
  | .ok _ =>
    if bucket = [] then .error .bucketNameInvalid
    else if delimiter ≠ [] ∧ delimiter ≠ gostr "/" then
      .error (.unsupportedDelimiter delimiter)
    else
      match uploadsLoop bucket maxUploads items maxUploads [] [] keyMarker with
      | (prefixes, uploads, startAfter, remaining) =>
        match iterFail, remaining with
        | some e, [] => .error (checkBucketError (convertMultipartError e bucket [] []))
        | _, rem =>
          .ok { keyMarker := keyMarker, uploadIDMarker := uploadIDMarker,
                nextKeyMarker := if rem.isEmpty then [] else startAfter,
                maxUploads := maxUploads, isTruncated := !rem.isEmpty,
                uploads := uploads, pfx := pfx, delimiter := delimiter,
                commonPrefixes := prefixes }

/-- The window of iterator items the page loop consumes: everything when
`maxUploads` is zero, at most `maxUploads` items otherwise. -/
def pageWindow (maxUploads : Int) (items : List UploadItem) : List UploadItem :=
  if maxUploads = 0 then items else items.take maxUploads.toNat

/-! ### In-memory credential store (src/auth/memauth/memauth.go) -/

/-- `auth.KeyHash`, a 32-byte digest, modelled as a byte list. -/
abbrev KeyHash := List Nat

/-- `auth.Record` (fields from src/auth). -/
structure Record where
  satelliteAddress : GoStr
  macaroonHead : List Nat
  encryptedSecretKey : List Nat
  encryptedAccessGrant : List Nat
deriving DecidableEq, Repr

/-- Errors of the in-memory store: `errs.New("record already exists")` and
the `auth.Invalid` class carrying the stored reason. -/
inductive StoreErr where
  | alreadyExists
  | invalid (reason : GoStr)
deriving DecidableEq, Repr

/-- State of `memauth.KV`: the live-record map and the invalidation map
(Go maps, modelled as update functions; the mutex serialises every operation,
so each is one atomic state transition). -/
structure KV where
  entries : KeyHash → Option Record
  invalid : KeyHash → Option GoStr

/-- `memauth.New`: both maps empty. -/
def newKV : KV := { entries := fun _ => none, invalid := fun _ => none }

/-- Translation of `KV.Put`: fails (state unchanged) if the key already has a
live record, otherwise inserts it. -/
def KV.put (d : KV) (keyHash : KeyHash) (record : Record) : Option StoreErr × KV :=
  match d.entries keyHash with
  | some _ => (some .alreadyExists, d)
  | none =>
    (none, { d with entries := fun k => if k = keyHash then some record else d.entries k })

/-- Translation of `KV.Get`: an invalidated hash fails with `Invalid` and the
stored reason regardless of the live map; otherwise the live record, or
`none` when absent. -/
def KV.get (d : KV) (keyHash : KeyHash) : Except StoreErr (Option Record) :=
  match d.invalid keyHash with
  | some reason => .error (.invalid reason)
  | none => .ok (d.entries keyHash)

/-- Translation of `KV.Delete`: removes the hash from both maps; never an
error. -/
def KV.delete (d : KV) (keyHash : KeyHash) : KV :=
  { entries := fun k => if k = keyHash then none else d.entries k,
    invalid := fun k => if k = keyHash then none else d.invalid k }

/-- Translation of `KV.Invalidate`: records the reason only when none is
recorded yet; never an error. -/
def KV.invalidate (d : KV) (keyHash : KeyHash) (reason : GoStr) : KV :=
  match d.invalid keyHash with
  | some _ => d
  | none => { d with invalid := fun k => if k = keyHash then some reason else d.invalid k }

/-- A sample credential record for concrete store runs. -/
def sampleRecord : Record :=
  { satelliteAddress := gostr "sat", macaroonHead := gostr "mac",
    encryptedSecretKey := gostr "sk", encryptedAccessGrant := gostr "grant" }

/-- A second, different sample credential record. -/
def sampleRecord2 : Record :=
  { satelliteAddress := gostr "sat2", macaroonHead := gostr "mac2",
    encryptedSecretKey := gostr "sk2", encryptedAccessGrant := gostr "grant2" }

/-! ### Sanity checks of the MD5 embedding against the RFC 1321 test vectors -/

theorem md5_vector_empty : hexEncode (md5 []) = gostr "d41d8cd98f00b204e9800998ecf8427e" := by
  decide

theorem md5_vector_abc :
    hexEncode (md5 (gostr "abc")) = gostr "900150983cd24fb0d6963f7d28e17f72" := by decide

/-! ### Helper lemmas -/

/-- The append-accumulating fold of `multipartUploadETag` concatenates the
per-part contributions in order. -/
theorem etag_fold_eq_flatten :
    ∀ (l : List CompletePart) (acc : List Nat),
      l.foldl (fun acc part => acc ++ etagContribution part.eTag) acc =
        acc ++ (l.map (fun part => etagContribution part.eTag)).flatten
  | [], acc => by simp
  | p :: l, acc => by
    simp only [List.foldl_cons, List.map_cons, List.flatten_cons]
    rw [etag_fold_eq_flatten l (acc ++ etagContribution p.eTag)]
    simp [List.append_assoc]

/-- The contribution equals the hex-decoded canonical ETag with the raw bytes
as fallback. -/
theorem etagContribution_eq_getD (etag : GoStr) :
    etagContribution etag = (hexDecode (canonicalEtag etag)).getD etag := by
  unfold etagContribution
  cases hexDecode (canonicalEtag etag) <;> rfl

/-- Setting a metadata key makes it the value the lookup returns. -/
theorem metaGet_metaSet (m : CustomMetadata) (k v : GoStr) :
    metaGet (metaSet m k v) k = some v := by
  unfold metaGet metaSet
  rw [List.reverse_append]
  simp [List.find?]

/-! ### Claim theorems -/

/-- C1: for every list of parts, the aggregate ETag is the lowercase hex MD5
of the in-order concatenation of the per-part contributions, followed by `-`
and the part count, where a part's contribution is the hex-decoding of its
quote-trimmed, `-`-suffix-stripped ETag, with the raw ETag bytes as fallback
when that remainder is not valid hex. -/
theorem c1_aggregate_etag (parts : List CompletePart) :
    multipartUploadETag parts =
      hexEncode (md5 ((parts.map
          (fun part => (hexDecode (canonicalEtag part.eTag)).getD part.eTag)).flatten)) ++
        45 :: itoa parts.length := by
  unfold multipartUploadETag
  rw [etag_fold_eq_flatten]
  simp only [List.nil_append, etagContribution_eq_getD]

/-- C2 counterexample: the two part ETags `""` and `"-1"` are distinct, yet
both contribute the empty byte string (the empty string hex-decodes to no
bytes, and `"-1"` is truncated at its `-` to the empty string), so swapping
them does not change the aggregate ETag. -/
theorem c2_counterexample :
    ((⟨1, gostr ""⟩ : CompletePart) ≠ ⟨2, gostr "-1"⟩) ∧
    multipartUploadETag [⟨1, gostr ""⟩, ⟨2, gostr "-1"⟩] =
      multipartUploadETag [⟨2, gostr "-1"⟩, ⟨1, gostr ""⟩] := ⟨by decide, by decide⟩

/-- C2 amended: repeated computation on the same ordered input always yields
the same output, and swapping two distinct parts can change the aggregate
(it does for the hex ETags `"aa"` and `"bb"`), but not for every distinct
pair: parts with equal canonical contributions are a counterexample. -/
theorem c2_amended_determinism (ps qs : List CompletePart) (h : ps = qs) :
    multipartUploadETag ps = multipartUploadETag qs ∧
    multipartUploadETag [⟨1, gostr "aa"⟩, ⟨2, gostr "bb"⟩] ≠
      multipartUploadETag [⟨2, gostr "bb"⟩, ⟨1, gostr "aa"⟩] := ⟨by rw [h], by decide⟩

/-- C2 amended, witnessed at a concrete input. -/
theorem c2_amended_witness :
    multipartUploadETag [⟨1, gostr "aa"⟩] = multipartUploadETag [⟨1, gostr "aa"⟩] ∧
    multipartUploadETag [⟨1, gostr "aa"⟩, ⟨2, gostr "bb"⟩] ≠
      multipartUploadETag [⟨2, gostr "bb"⟩, ⟨1, gostr "aa"⟩] :=
  c2_amended_determinism [⟨1, gostr "aa"⟩] [⟨1, gostr "aa"⟩] rfl

/-- C8: after two invalidations of the same hash with different reasons, a
`Get` of that hash fails with `Invalid` carrying the first reason, whatever
the live-record map holds for it. -/
theorem c8_invalidate_first_wins (d : KV) (k : KeyHash) (ra rb : GoStr)
    (h : d.invalid k = none) :
    ((d.invalidate k ra).invalidate k rb).get k = .error (.invalid ra) := by
  unfold KV.invalidate KV.get
  rw [h]
  simp

/-- C8, witnessed on a store that also holds a live record for the hash. -/
theorem c8_invalidate_witness :
    (((newKV.put [1] sampleRecord).2.invalidate [1] (gostr "reason-A")).invalidate [1]
        (gostr "reason-B")).get [1] = .error (.invalid (gostr "reason-A")) :=
  c8_invalidate_first_wins (newKV.put [1] sampleRecord).2 [1] (gostr "reason-A")
    (gostr "reason-B") rfl

/-- C9: after a successful `Put` of `r1` under `k`, a second `Put` under `k`
fails with already-exists, leaves the store unchanged, and `k` still maps to
`r1`. -/
theorem c9_put_once (d : KV) (k : KeyHash) (r1 r2 : Record) (d1 : KV)
    (h : d.put k r1 = (none, d1)) :
    (d1.put k r2).1 = some .alreadyExists ∧ (d1.put k r2).2 = d1 ∧
      d1.entries k = some r1 := by
  unfold KV.put at h ⊢
  cases he : d.entries k with
  | some r => rw [he] at h; simp at h
  | none =>
    rw [he] at h
    have hd1 : d1 = { d with entries := fun x => if x = k then some r1 else d.entries x } := by
      have := congrArg Prod.snd h
      simpa using this.symm
    subst hd1
    simp

/-- C9, witnessed at a concrete hash and records. -/
theorem c9_put_once_witness :
    ((newKV.put [1] sampleRecord).2.put [1] sampleRecord2).1 = some .alreadyExists ∧
    ((newKV.put [1] sampleRecord).2.put [1] sampleRecord2).2 = (newKV.put [1] sampleRecord).2 ∧
    (newKV.put [1] sampleRecord).2.entries [1] = some sampleRecord :=
  c9_put_once newKV [1] sampleRecord sampleRecord2 (newKV.put [1] sampleRecord).2 rfl

/-- C10: `GetMultipartInfo` always succeeds, echoing bucket, object and
uploadID into an otherwise zero record; the definition takes no network
parameter and checks nothing. -/
theorem c10_get_multipart_info (bucket object uploadID : GoStr) :
    GetMultipartInfo bucket object uploadID =
      .ok { bucket := bucket, object := object, initiated := 0, uploadID := uploadID,
            userDefined := [] } := rfl

/-- C3: whenever `CompleteMultipartUpload` succeeds, the metadata it sent to
the single network completion call maps `s3:etag` to the aggregate ETag of
the given parts, and the returned object info carries that same ETag. -/
theorem c3_complete_etag (openResult : Except GoErr Unit)
    (net : GoStr → GoStr → GoStr → CustomMetadata → Except NetErr NetObject)
    (bucket object uploadID : GoStr) (parts : List CompletePart)
    (userDefined : CustomMetadata) (info : ObjectInfoM)
    (h : CompleteMultipartUpload openResult net bucket object uploadID parts userDefined =
      .ok info) :
    metaGet (completionMetadata userDefined parts) (gostr "s3:etag") =
        some (multipartUploadETag parts) ∧
    info.eTag = multipartUploadETag parts := by
  refine ⟨metaGet_metaSet _ _ _, ?_⟩
  unfold CompleteMultipartUpload at h
  cases openResult with
  | error e => simp at h
  | ok u =>
    cases hn : net bucket object uploadID (completionMetadata userDefined parts) with
    | error e => simp [hn] at h
    | ok obj =>
      simp only [hn] at h
      cases h
      rfl

/-- C3, witnessed with a network that accepts the completion. -/
theorem c3_complete_etag_witness :
    metaGet (completionMetadata [] [⟨1, gostr "abc"⟩]) (gostr "s3:etag") =
        some (multipartUploadETag [⟨1, gostr "abc"⟩]) ∧
    (minioObjectInfo (gostr "b") (multipartUploadETag [⟨1, gostr "abc"⟩])
        ⟨gostr "o", gostr "sid", 0, []⟩).eTag = multipartUploadETag [⟨1, gostr "abc"⟩] :=
  c3_complete_etag (.ok ()) (fun _ _ _ _ => .ok ⟨gostr "o", gostr "sid", 0, []⟩)
    (gostr "b") (gostr "o") (gostr "sid") [⟨1, gostr "abc"⟩] []
    (minioObjectInfo (gostr "b") (multipartUploadETag [⟨1, gostr "abc"⟩])
      ⟨gostr "o", gostr "sid", 0, []⟩) rfl

/-- C4: once the project is open, `ListMultipartUploads` with an empty bucket
fails with `BucketNameInvalid`, and with a non-empty bucket and a delimiter
other than `""` or `"/"` it fails with `UnsupportedDelimiter` carrying that
delimiter; both results are the same for every iterator content and iterator
error, so no listing data is consulted. -/
theorem c4_validation (itemsA itemsB : List UploadItem) (ifA ifB : Option NetErr)
    (pfxA kmA uimA delimA : GoStr) (maxA : Int)
    (bucketB pfxB kmB uimB delimB : GoStr) (maxB : Int)
    (hb : bucketB ≠ []) (hd1 : delimB ≠ []) (hd2 : delimB ≠ gostr "/") :
    ListMultipartUploads (.ok ()) itemsA ifA [] pfxA kmA uimA delimA maxA =
        .error .bucketNameInvalid ∧
    ListMultipartUploads (.ok ()) itemsB ifB bucketB pfxB kmB uimB delimB maxB =
        .error (.unsupportedDelimiter delimB) := by
  constructor
  · rfl
  · unfold ListMultipartUploads
    simp [hb, hd1, hd2]

/-- C4, witnessed at concrete invalid calls. -/
theorem c4_validation_witness :
    ListMultipartUploads (.ok ()) [] none [] [] [] [] [] 5 = .error .bucketNameInvalid ∧
    ListMultipartUploads (.ok ()) [] none (gostr "b") [] [] [] (gostr "-") 5 =
      .error (.unsupportedDelimiter (gostr "-")) :=
  c4_validation [] [] none none [] [] [] [] 5 (gostr "b") [] [] [] (gostr "-") 5
    (by decide) (by decide) (by decide)

/-- C7: `PutObjectPart` calls the network at index `partID - 1`; on success
the returned part info carries the given part number, the network-reported
size, and the MD5 of the client-supplied bytes (the network result holds no
ETag at all); and when the network reports an invalid stream ID the call
fails with `InvalidUploadID` carrying bucket, object and uploadID. -/
theorem c7_put_part (netA netB : Int → List Nat → Except NetErr NetPartUpload)
    (bucket object uploadID : GoStr) (partID : Int) (data : List Nat) (res : NetPartUpload)
    (hA : netA (partID - 1) data = .ok res)
    (hB : netB (partID - 1) data = .error .streamIDInvalid) :
    PutObjectPart (.ok ()) netA bucket object uploadID partID data =
      .ok { partNumber := partID, lastModified := 0, eTag := hexEncode (md5 data),
            size := res.size, actualSize := 0 } ∧
    PutObjectPart (.ok ()) netB bucket object uploadID partID data =
      .error (.invalidUploadID bucket object uploadID) := by
  constructor
  · unfold PutObjectPart
    rw [hA]
    rfl
  · unfold PutObjectPart
    rw [hB]
    rfl

/-- One-step equation of the page loop on an empty iterator. -/
theorem uploadsLoop_nil (bucket : GoStr) (maxUploads limit : Int) (prefixes : List GoStr)
    (uploads : List MultipartInfoM) (startAfter : GoStr) :
    uploadsLoop bucket maxUploads [] limit prefixes uploads startAfter =
      (prefixes, uploads, startAfter, []) := by
  unfold uploadsLoop
  split <;> rfl

/-- One-step equation of the page loop on a yielded item. -/
theorem uploadsLoop_cons (bucket : GoStr) (maxUploads : Int) (it : UploadItem)
    (rest : List UploadItem) (limit : Int) (prefixes : List GoStr)
    (uploads : List MultipartInfoM) (startAfter : GoStr) :
    uploadsLoop bucket maxUploads (it :: rest) limit prefixes uploads startAfter =
      if limit > 0 ∨ maxUploads = 0 then
        (if it.isPre then
          uploadsLoop bucket maxUploads rest (limit - 1) (prefixes ++ [it.key]) uploads
            startAfter
        else
          uploadsLoop bucket maxUploads rest (limit - 1) prefixes
            (uploads ++ [minioMultipartInfo bucket it]) it.key)
      else (prefixes, uploads, startAfter, it :: rest) := by
  conv_lhs => unfold uploadsLoop

/-- With `maxUploads = 0` the page loop consumes the whole iterator,
classifying prefixes and uploads in order. -/
theorem uploadsLoop_maxZero (bucket : GoStr) (items : List UploadItem) :
    ∀ (limit : Int) (prefixes : List GoStr) (uploads : List MultipartInfoM)
      (startAfter : GoStr),
      uploadsLoop bucket 0 items limit prefixes uploads startAfter =
        (prefixes ++ (items.filter (fun it => it.isPre)).map (fun it => it.key),
         uploads ++ (items.filter (fun it => !it.isPre)).map (minioMultipartInfo bucket),
         items.foldl (fun sa it => if it.isPre then sa else it.key) startAfter,
         ([] : List UploadItem)) := by
  induction items with
  | nil => intro limit p u s; rw [uploadsLoop_nil]; simp
  | cons it rest ih =>
    intro limit p u s
    rw [uploadsLoop_cons, if_pos (Or.inr rfl)]
    cases hp : it.isPre with
    | true => rw [if_pos rfl, ih]; simp [List.filter_cons, hp]
    | false => rw [if_neg (by simp [hp]), ih]; simp [List.filter_cons, hp]

/-- With `maxUploads ≠ 0` and a non-negative limit, the page loop consumes
exactly the first `limit` items (every item, prefix or upload, decrements the
limit) and leaves the rest unconsumed. -/
theorem uploadsLoop_take (bucket : GoStr) (maxUploads : Int) (hm : maxUploads ≠ 0)
    (items : List UploadItem) :
    ∀ (limit : Int), 0 ≤ limit →
      ∀ (prefixes : List GoStr) (uploads : List MultipartInfoM) (startAfter : GoStr),
      uploadsLoop bucket maxUploads items limit prefixes uploads startAfter =
        (prefixes ++
           ((items.take limit.toNat).filter (fun it => it.isPre)).map (fun it => it.key),
         uploads ++
           ((items.take limit.toNat).filter (fun it => !it.isPre)).map
             (minioMultipartInfo bucket),
         (items.take limit.toNat).foldl (fun sa it => if it.isPre then sa else it.key)
           startAfter,
         items.drop limit.toNat) := by
  induction items with
  | nil => intro limit h0 p u s; rw [uploadsLoop_nil]; simp
  | cons it rest ih =>
    intro limit h0 p u s
    rw [uploadsLoop_cons]
    by_cases hl : (0 : Int) < limit
    · rw [if_pos (Or.inl hl)]
      have htn : limit.toNat = (limit - 1).toNat + 1 := by omega
      rw [htn, List.take_succ_cons, List.drop_succ_cons]
      cases hp : it.isPre with
      | true =>
        rw [if_pos rfl, ih (limit - 1) (by omega)]
        simp [List.filter_cons, hp]
      | false =>
        rw [if_neg (by simp [hp]), ih (limit - 1) (by omega)]
        simp [List.filter_cons, hp]
    · have hl0 : limit = 0 := by omega
      subst hl0
      rw [if_neg (by simp [hm])]
      simp

/-- C5 counterexample: with `maxUploads = 1` and an iterator yielding a
common-prefix marker and then an upload, the gateway returns no uploads (the
prefix consumed the whole quota), while the claim's quota rule (prefixes are
free) would have returned the upload; the code loop and the claim loop
disagree at this input. -/
theorem c5_counterexample :
    (ListMultipartUploads (.ok ())
        [⟨true, gostr "p/", [], 0, []⟩, ⟨false, gostr "k", gostr "s", 0, []⟩] none
        (gostr "b") [] [] [] [] 1).map (fun r => r.uploads) = .ok [] ∧
    uploadsLoop (gostr "b") 1
        [⟨true, gostr "p/", [], 0, []⟩, ⟨false, gostr "k", gostr "s", 0, []⟩] 1 [] [] [] ≠
      uploadsLoopClaim (gostr "b") 1
        [⟨true, gostr "p/", [], 0, []⟩, ⟨false, gostr "k", gostr "s", 0, []⟩] 1 [] [] [] :=
  ⟨by decide, by decide⟩

/-- C5 amended: with valid arguments and a cleanly ending iterator,
`ListMultipartUploads` consumes the window of at most `maxUploads` items
(every item, including a common-prefix marker, counts toward the quota;
unbounded when `maxUploads = 0`); within the window prefixes go to
`commonPrefixes` and uploads to `uploads`, the `nextKeyMarker` candidate
follows the upload keys, and the truncation flag says whether an unconsumed
item remained beyond the window, without including it in the results. -/
theorem c5_amended (items : List UploadItem)
    (bucket pfx keyMarker uploadIDMarker delimiter : GoStr) (maxUploads : Int)
    (hb : bucket ≠ []) (hd : delimiter = [] ∨ delimiter = gostr "/")
    (hm : 0 ≤ maxUploads) :
    ListMultipartUploads (.ok ()) items none bucket pfx keyMarker uploadIDMarker delimiter
        maxUploads =
      .ok { keyMarker := keyMarker, uploadIDMarker := uploadIDMarker,
            nextKeyMarker := if (pageWindow maxUploads items).length < items.length then
                (pageWindow maxUploads items).foldl
                  (fun sa it => if it.isPre then sa else it.key) keyMarker
              else [],
            maxUploads := maxUploads,
            isTruncated := decide ((pageWindow maxUploads items).length < items.length),
            uploads := ((pageWindow maxUploads items).filter (fun it => !it.isPre)).map
              (minioMultipartInfo bucket),
            pfx := pfx, delimiter := delimiter,
            commonPrefixes := ((pageWindow maxUploads items).filter (fun it => it.isPre)).map
              (fun it => it.key) } := by
  unfold ListMultipartUploads
  rw [if_neg hb, if_neg (by rcases hd with h | h <;> simp [h])]
  by_cases hz : maxUploads = 0
  · subst hz
    rw [uploadsLoop_maxZero]
    simp [pageWindow]
  · rw [uploadsLoop_take bucket maxUploads hz items maxUploads hm]
    simp only [pageWindow, if_neg hz]
    by_cases h : items.length ≤ maxUploads.toNat
    · rw [List.drop_eq_nil_of_le h]
      have hnl : ¬ (items.take maxUploads.toNat).length < items.length := by
        rw [List.length_take]; omega
      simp [hnl]
      exact ⟨fun hcon => by omega, h⟩
    · obtain ⟨a, t, hat⟩ := List.exists_cons_of_ne_nil
        (fun hh => h (List.drop_eq_nil_iff.mp hh))
      rw [hat]
      have hlt : (items.take maxUploads.toNat).length < items.length := by
        rw [List.length_take]; omega
      have hlt2 : maxUploads.toNat < items.length := by omega
      simp [hlt]
      rw [if_pos hlt2]
      exact ⟨rfl, hlt2⟩

/-- C5 amended, witnessed on a two-item page with `maxUploads = 2`. -/
theorem c5_amended_witness :
    ListMultipartUploads (.ok ())
        [⟨true, gostr "p/", [], 0, []⟩, ⟨false, gostr "k", gostr "s", 0, []⟩] none
        (gostr "b") [] [] [] [] 2 =
      .ok { keyMarker := [], uploadIDMarker := [],
            nextKeyMarker := if (pageWindow 2
                  [⟨true, gostr "p/", [], 0, []⟩,
                   ⟨false, gostr "k", gostr "s", 0, []⟩]).length <
                  ([⟨true, gostr "p/", [], 0, []⟩,
                    ⟨false, gostr "k", gostr "s", 0, []⟩] : List UploadItem).length then
                (pageWindow 2
                    [⟨true, gostr "p/", [], 0, []⟩,
                     ⟨false, gostr "k", gostr "s", 0, []⟩]).foldl
                  (fun sa it => if it.isPre then sa else it.key) []
              else [],
            maxUploads := 2,
            isTruncated := decide ((pageWindow 2
                  [⟨true, gostr "p/", [], 0, []⟩,
                   ⟨false, gostr "k", gostr "s", 0, []⟩]).length <
                ([⟨true, gostr "p/", [], 0, []⟩,
                  ⟨false, gostr "k", gostr "s", 0, []⟩] : List UploadItem).length),
            uploads := ((pageWindow 2
                  [⟨true, gostr "p/", [], 0, []⟩,
                   ⟨false, gostr "k", gostr "s", 0, []⟩]).filter
                (fun it => !it.isPre)).map (minioMultipartInfo (gostr "b")),
            pfx := [], delimiter := [],
            commonPrefixes := ((pageWindow 2
                  [⟨true, gostr "p/", [], 0, []⟩,
                   ⟨false, gostr "k", gostr "s", 0, []⟩]).filter
                (fun it => it.isPre)).map (fun it => it.key) } :=
  c5_amended [⟨true, gostr "p/", [], 0, []⟩, ⟨false, gostr "k", gostr "s", 0, []⟩]
    (gostr "b") [] [] [] [] 2 (by decide) (Or.inl rfl) (by decide)

/-- C6: whenever the network answers the query at marker `partNumberMarker -
1` and `ListObjectParts` succeeds, the returned parts are sorted ascending by
part number, every part's ETag is empty, the (part number, size) pairs are a
permutation of the network items' with part numbers shifted to 1-based, and
the truncation flag is the network's `More`. -/
theorem c6_list_parts (net : Int → Int → Except NetErr NetPartList)
    (bucket object uploadID : GoStr) (partNumberMarker maxParts : Int)
    (res : NetPartList) (out : ListPartsInfoM)
    (hnet : net (partNumberMarker - 1) maxParts = .ok res)
    (hout : ListObjectParts (.ok ()) net bucket object uploadID partNumberMarker maxParts =
      .ok out) :
    out.parts.Pairwise partNumLE ∧
    out.parts.all (fun p => p.eTag == []) = true ∧
    List.Perm (out.parts.map (fun p => (p.partNumber, p.size)))
      (res.items.map (fun it => (it.partNumber + 1, it.size))) ∧
    out.isTruncated = res.more := by
  unfold ListObjectParts at hout
  simp only [hnet, Except.ok.injEq] at hout
  subst hout
  refine ⟨List.sorted_insertionSort partNumLE _, ?_, ?_, rfl⟩
  · rw [List.all_eq_true]
    intro p hp
    rw [sortByPartNumber, List.mem_insertionSort, List.mem_map] at hp
    obtain ⟨it, hit, rfl⟩ := hp
    rfl
  · have h1 := (List.perm_insertionSort partNumLE (res.items.map (fun item =>
      ({ partNumber := item.partNumber + 1, lastModified := item.lastModified, eTag := [],
         size := item.size, actualSize := item.size } : PartInfoM)))).map
      (fun p => (p.partNumber, p.size))
    simpa [sortByPartNumber, List.map_map, Function.comp] using h1

/-- C6, witnessed with a network page holding parts at indices 2 and 0. -/
theorem c6_list_parts_witness :
    ([⟨1, 0, [], 3, 3⟩, ⟨3, 0, [], 5, 5⟩] : List PartInfoM).Pairwise partNumLE ∧
    ([⟨1, 0, [], 3, 3⟩, ⟨3, 0, [], 5, 5⟩] : List PartInfoM).all (fun p => p.eTag == []) =
      true ∧
    List.Perm (([⟨1, 0, [], 3, 3⟩, ⟨3, 0, [], 5, 5⟩] : List PartInfoM).map
        (fun p => (p.partNumber, p.size)))
      (([⟨2, 0, 5⟩, ⟨0, 0, 3⟩] : List NetPartItem).map (fun it => (it.partNumber + 1, it.size))) ∧
    (true : Bool) = true :=
  c6_list_parts (fun _ _ => .ok ⟨[⟨2, 0, 5⟩, ⟨0, 0, 3⟩], true⟩) (gostr "b") (gostr "o")
    (gostr "sid") 1 10 ⟨[⟨2, 0, 5⟩, ⟨0, 0, 3⟩], true⟩
    { bucket := gostr "b", object := gostr "o", uploadID := gostr "sid", storageClass := [],
      partNumberMarker := 1, nextPartNumberMarker := 1, maxParts := 10, isTruncated := true,
      parts := [⟨1, 0, [], 3, 3⟩, ⟨3, 0, [], 5, 5⟩] } rfl (by decide)

/-- C7, witnessed with a network that stores the part and one that rejects
the stream ID. -/
theorem c7_put_part_witness :
    PutObjectPart (.ok ()) (fun _ _ => .ok ⟨7⟩) (gostr "b") (gostr "o") (gostr "sid") 3
        (gostr "xy") =
      .ok { partNumber := 3, lastModified := 0, eTag := hexEncode (md5 (gostr "xy")),
            size := (7 : Int), actualSize := 0 } ∧
    PutObjectPart (.ok ()) (fun _ _ => .error .streamIDInvalid) (gostr "b") (gostr "o")
        (gostr "sid") 3 (gostr "xy") =
      .error (.invalidUploadID (gostr "b") (gostr "o") (gostr "sid")) :=
  c7_put_part (fun _ _ => .ok ⟨7⟩) (fun _ _ => .error .streamIDInvalid) (gostr "b")
    (gostr "o") (gostr "sid") 3 (gostr "xy") ⟨7⟩ rfl rfl

end Stargate
